import Mathlib

/-!
# Verification of the `three-spatial-hash-grid` core

A shallow embedding of `src/SpatialHashGrid.ts` (the `SpatialHashGrid` class),
`src/math.ts` (`_Math.sat`) and `src/ThreeSpatialHashGrid.ts`
(`ThreeSpatialHashGrid`).

Modelling choices:

* JavaScript numbers are modelled as exact rationals (`ℚ`).  Every arithmetic
  operation the grid performs (`+`, `-`, `/ 2`, normalisation by the bounds
  extent, `Math.min`/`Math.max`, `Math.floor`) is exact on the inputs the
  claims quantify over, so `ℚ` reproduces the source computation.
* The mutable object graph is modelled as an explicit heap: clients live in a
  list (`World.heap`) indexed by client id, and the per-cell doubly-linked
  lists of `Head` nodes are modelled as Lean lists of `BNode` records (head of
  the JS list = head of the Lean list).  Node/pointer identity is modelled by
  giving every created node a fresh integer id drawn from the allocation
  counter `World.nextNode`; two states are "pointer identical" iff they are
  equal as values.
* The JS linked-list splice in `remove` detaches exactly the one recorded
  node; on the list model this is `List.eraseP` with the recorded node id
  (node ids are unique because they are allocated from a counter).
* Methods that `throw` are modelled in `Except String`; an `.error` result
  models the exception propagating with the caller's state unchanged, which
  is faithful because in the source every `throw` happens before any mutation.
* `cells[x][y]` accesses are modelled by `bucketAt`/`modifyBucket`, which
  return `[]` / do nothing for out-of-range indices.  (In JS an out-of-range
  access would fault; the range theorem below shows that under a well-formed
  grid all accesses performed by the operations are in range.)
-/

/- Batteries marks the `Rat` field operations `@[irreducible]`; restore
semireducibility in this file so that concrete grid states (whose coordinates
are rationals) can be evaluated by `decide`. -/
attribute [local semireducible] Rat.add Rat.mul Rat.inv Rat.sub

deriving instance DecidableEq for Except

namespace SpatialHashGrid

/-- A node of a cell's doubly-linked list (`Head` in `types.ts`): it carries
the owning client (`head.client`); `node` is the allocation id standing for
the JS object identity of the `Head` record. -/
structure BNode where
  node : ℕ
  client : ℕ
deriving DecidableEq, Repr

/-- One cell's bucket: the doubly-linked list of `Head` nodes, front = the
list head stored in `this.cells[x][y]`. -/
abbrev Bucket := List BNode

/-- The `Client` record of `types.ts`: `position`, `dimensions`, the `cells`
bookkeeping object (`min`, `max`, `nodes`) and `_queryId`.  `metadata` is the
opaque payload; the Three-layer stores its object there, modelled as an index
into the object table. -/
structure Client where
  posX : ℚ
  posY : ℚ
  dimW : ℚ
  dimH : ℚ
  spanMin : Option (ℤ × ℤ)
  spanMax : Option (ℤ × ℤ)
  nodes : Option (List (List ℕ))
  queryId : ℤ
  metadata : ℕ
deriving DecidableEq, Repr

instance : Inhabited Client :=
  ⟨{ posX := 0, posY := 0, dimW := 0, dimH := 0, spanMin := none,
     spanMax := none, nodes := none, queryId := -1, metadata := 0 }⟩

/-- The whole mutable state of one `SpatialHashGrid`: its construction
parameters (`bounds`, `dimensions`), the cell array, the query counter, the
node-allocation counter (modelling JS object identity of `Head` nodes) and
the heap of client records. -/
structure World where
  bMinX : ℚ
  bMinY : ℚ
  bMaxX : ℚ
  bMaxY : ℚ
  dimsX : ℕ
  dimsY : ℕ
  cells : List (List Bucket)
  queryIds : ℤ
  nextNode : ℕ
  heap : List Client
deriving DecidableEq, Repr

/-- The constructor: `cells` is a `dimsX`-element array of `dimsY`-element
arrays of empty buckets (`null` heads), `queryIds = 0`. -/
def mkWorld (bMinX bMinY bMaxX bMaxY : ℚ) (dimsX dimsY : ℕ) : World :=
  { bMinX, bMinY, bMaxX, bMaxY, dimsX, dimsY,
    cells := List.replicate dimsX (List.replicate dimsY ([] : Bucket)),
    queryIds := 0, nextNode := 0, heap := [] }

/-- `_Math.sat` from `math.ts`: `Math.min(Math.max(x, 0.0), 1.0)`. -/
def sat (x : ℚ) : ℚ := min (max x 0) 1

/-- One axis of `getCellIndex`: `Math.floor(sat(t) * (n - 1))` where `t` is
the normalised coordinate and `n` the cell count along the axis. -/
def axisIndex (n : ℕ) (t : ℚ) : ℤ := ⌊sat t * ((n : ℚ) - 1)⌋

/-- `SpatialHashGrid.getCellIndex`: normalise each coordinate by the bounds,
saturate into `[0,1]`, scale by `dimensions - 1` and floor. -/
def getCellIndex (w : World) (px py : ℚ) : ℤ × ℤ :=
  (axisIndex w.dimsX ((px - w.bMinX) / (w.bMaxX - w.bMinX)),
   axisIndex w.dimsY ((py - w.bMinY) / (w.bMaxY - w.bMinY)))

/-- The `i1` computed identically in `insert`, `updateClient` and `findNear`:
`getCellIndex([x - w / 2, y - h / 2])`. -/
def clientSpanMin (w : World) (c : Client) : ℤ × ℤ :=
  getCellIndex w (c.posX - c.dimW / 2) (c.posY - c.dimH / 2)

/-- The `i2` computed identically in `insert`, `updateClient` and `findNear`:
`getCellIndex([x + w / 2, y + h / 2])`. -/
def clientSpanMax (w : World) (c : Client) : ℤ × ℤ :=
  getCellIndex w (c.posX + c.dimW / 2) (c.posY + c.dimH / 2)

/-- The inclusive integer interval `[a, b]` (`for (let x = a; x <= b; ++x)`);
empty when `b < a`, exactly as the JS loop. -/
def intRange (a b : ℤ) : List ℤ :=
  (List.range (b + 1 - a).toNat).map (fun (k : ℕ) => a + (k : ℤ))

/-- The cells visited by the nested `x`/`y` loops of `insert`, `remove` and
`findNear`: `x` outer from `i1.1` to `i2.1`, `y` inner from `i1.2` to
`i2.2`, both inclusive. -/
def spanCells (i1 i2 : ℤ × ℤ) : List (ℤ × ℤ) :=
  (intRange i1.1 i2.1).flatMap (fun x => (intRange i1.2 i2.2).map (fun y => (x, y)))

/-- Replace the `n`-th element of a list by `f` of it (no-op out of range);
models in-place mutation of one slot of a JS array. -/
def modifyNth (f : α → α) : ℕ → List α → List α
  | _, [] => []
  | 0, a :: as => f a :: as
  | n + 1, a :: as => a :: modifyNth f n as

/-- Read `cells[x][y]` (the bucket head); `[]` when out of range. -/
def bucketAt (cells : List (List Bucket)) (x y : ℤ) : Bucket :=
  if 0 ≤ x ∧ 0 ≤ y then (cells.getD x.toNat []).getD y.toNat [] else []

/-- Mutate `cells[x][y]` by `f`; no-op when out of range. -/
def modifyBucket (cells : List (List Bucket)) (x y : ℤ) (f : Bucket → Bucket) :
    List (List Bucket) :=
  if 0 ≤ x ∧ 0 ≤ y then modifyNth (modifyNth f y.toNat) x.toNat cells else cells

/-- `(x, y)` addresses an existing slot of the cell array. -/
def inCells (cells : List (List Bucket)) (x y : ℤ) : Prop :=
  0 ≤ x ∧ 0 ≤ y ∧ x.toNat < cells.length ∧ y.toNat < (cells.getD x.toNat []).length

instance (cells : List (List Bucket)) (x y : ℤ) : Decidable (inCells cells x y) := by
  unfold inCells; infer_instance

/-- The `nodes` grid built by `insert`: `nodes[xi][yi]` is the id of the
`Head` allocated for offset `(xi, yi)`; ids are consecutive from `base` in
the source's allocation order (outer `x`, inner `y`). -/
def insertNodesGrid (base nx ny : ℕ) : List (List ℕ) :=
  (List.range nx).map (fun xi => (List.range ny).map (fun yi => base + xi * ny + yi))

/-- `SpatialHashGrid.insert`: recompute the span from the client's current
`position`/`dimensions`, prepend a fresh `Head` to every covered cell's
bucket, record the node grid and store `min`/`max`/`nodes` on the client.
The source performs no precondition check whatsoever. -/
def insertClient (w : World) (cid : ℕ) : World :=
  let c := w.heap.getD cid default
  let i1 := clientSpanMin w c
  let i2 := clientSpanMax w c
  let nx := (i2.1 + 1 - i1.1).toNat
  let ny := (i2.2 + 1 - i1.2).toNat
  let newCells := (spanCells i1 i2).foldl
    (fun cs p => modifyBucket cs p.1 p.2
      (fun b => { node := w.nextNode + (p.1 - i1.1).toNat * ny + (p.2 - i1.2).toNat,
                  client := cid } :: b))
    w.cells
  let c' := { c with spanMin := some i1, spanMax := some i2,
                     nodes := some (insertNodesGrid w.nextNode nx ny) }
  { w with cells := newCells, heap := w.heap.set cid c',
           nextNode := w.nextNode + nx * ny }

/-- `SpatialHashGrid.newClient`: allocate a fresh client record (`min`,
`max`, `nodes` all `null`, `_queryId = -1`) and `insert` it; returns the
new state together with the new client's id. -/
def newClient (w : World) (px py dw dh : ℚ) (metadata : ℕ) : World × ℕ :=
  let cid := w.heap.length
  let c : Client := { posX := px, posY := py, dimW := dw, dimH := dh,
                      spanMin := none, spanMax := none, nodes := none,
                      queryId := -1, metadata }
  (insertClient { w with heap := w.heap ++ [c] } cid, cid)

/-- `SpatialHashGrid.remove`: fail (`throw`) if `min`/`max` or `nodes` are
`null`, otherwise splice the recorded node out of every covered cell's list
and clear `min`/`max`/`nodes`.  The `cells === null` check of the source is
dead code (the `cells` record always exists) and has no counterpart here. -/
def removeClient (w : World) (cid : ℕ) : Except String World :=
  let c := w.heap.getD cid default
  match c.spanMin, c.spanMax with
  | some i1, some i2 =>
    match c.nodes with
    | some nds =>
      let newCells := (spanCells i1 i2).foldl
        (fun cs p => modifyBucket cs p.1 p.2
          (fun b => b.eraseP
            (fun bn => bn.node == (nds.getD (p.1 - i1.1).toNat []).getD (p.2 - i1.2).toNat 0)))
        w.cells
      let c' := { c with spanMin := none, spanMax := none, nodes := none }
      .ok { w with cells := newCells, heap := w.heap.set cid c' }
    | none => .error "Client has no nodes."
  | _, _ => .error "Client has no min or max."

/-- `SpatialHashGrid.updateClient`: fail if the client has no `min`/`max`;
recompute the candidate span exactly as `insert` does; if it equals the
stored span return without touching anything (temporal-coherence fast path);
otherwise `remove` then `insert`. -/
def updateClient (w : World) (cid : ℕ) : Except String World :=
  let c := w.heap.getD cid default
  match c.spanMin, c.spanMax with
  | some mn, some mx =>
    if mn = clientSpanMin w c ∧ mx = clientSpanMax w c then .ok w
    else do
      let w' ← removeClient w cid
      .ok (insertClient w' cid)
  | _, _ => .error "Client has no min/max cells."

/-- The full traversal order of `findNear`'s nested loops: for every visited
cell (outer `x`, inner `y`), the clients of its bucket walked head to tail. -/
def visitOrder (cells : List (List Bucket)) (i1 i2 : ℤ × ℤ) : List ℕ :=
  (spanCells i1 i2).flatMap (fun p => (bucketAt cells p.1 p.2).map BNode.client)

/-- The body of `findNear`'s loops: walk the pending client occurrences; skip
a client already stamped with this query id, otherwise stamp it and push it.
The buckets themselves are never mutated, so pre-flattening the traversal
order is faithful. -/
def findNearLoop (qid : ℤ) : List Client → List ℕ → List ℕ → List Client × List ℕ
  | heap, [], acc => (heap, acc)
  | heap, cid :: rest, acc =>
    let c := heap.getD cid default
    if c.queryId = qid then findNearLoop qid heap rest acc
    else findNearLoop qid (heap.set cid { c with queryId := qid }) rest (acc ++ [cid])

/-- `SpatialHashGrid.findNear`: compute the query rectangle with the same
index mapping as `insert`, allocate a fresh query id (`this.queryIds++`),
walk every bucket in the rectangle deduplicating by `_queryId`. -/
def findNear (w : World) (px py bw bh : ℚ) : World × List ℕ :=
  let i1 := getCellIndex w (px - bw / 2) (py - bh / 2)
  let i2 := getCellIndex w (px + bw / 2) (py + bh / 2)
  let qid := w.queryIds
  let r := findNearLoop qid w.heap (visitOrder w.cells i1 i2) []
  ({ w with queryIds := w.queryIds + 1, heap := r.1 }, r.2)

/-- Some node of bucket `b` is owned by client `cid`. -/
def clientInBucket (cid : ℕ) (b : Bucket) : Prop := ∃ bn ∈ b, bn.client = cid

instance (cid : ℕ) (b : Bucket) : Decidable (clientInBucket cid b) := by
  unfold clientInBucket; infer_instance

/-- The stored span `(o1, o2)` is present (client inserted) and covers cell
`p` (inclusive rectangle). -/
def spanCovers (o1 o2 : Option (ℤ × ℤ)) (p : ℤ × ℤ) : Prop :=
  o1.isSome = true ∧ o2.isSome = true ∧
  (o1.getD (0, 0)).1 ≤ p.1 ∧ p.1 ≤ (o2.getD (0, 0)).1 ∧
  (o1.getD (0, 0)).2 ≤ p.2 ∧ p.2 ≤ (o2.getD (0, 0)).2

instance (o1 o2 : Option (ℤ × ℤ)) (p : ℤ × ℤ) : Decidable (spanCovers o1 o2 p) := by
  unfold spanCovers; infer_instance

/-- Well-formedness of a grid state: the construction invariants (positive
resolution, proper bounds, rectangular cell array) together with the data
invariants maintained by the operations: every client's `_queryId` is below
the grid's query counter, buckets only reference existing clients, and a
client owns a node in exactly the cells its stored span covers. -/
def WF (w : World) : Prop :=
  1 ≤ w.dimsX ∧ 1 ≤ w.dimsY ∧
  w.bMinX < w.bMaxX ∧ w.bMinY < w.bMaxY ∧
  w.cells.length = w.dimsX ∧
  (∀ row ∈ w.cells, row.length = w.dimsY) ∧
  (∀ c ∈ w.heap, c.queryId < w.queryIds) ∧
  (∀ x ∈ List.range w.dimsX, ∀ y ∈ List.range w.dimsY,
    (∀ bn ∈ bucketAt w.cells (x : ℤ) (y : ℤ), bn.client < w.heap.length) ∧
    ∀ cid ∈ List.range w.heap.length,
      (clientInBucket cid (bucketAt w.cells (x : ℤ) (y : ℤ)) ↔
        spanCovers (w.heap.getD cid default).spanMin
          (w.heap.getD cid default).spanMax ((x : ℤ), (y : ℤ))))

instance (w : World) : Decidable (WF w) := by
  unfold WF; infer_instance

end SpatialHashGrid

namespace ThreeSpatialHashGrid

open SpatialHashGrid

/-- A three.js `Vector3`. -/
structure Vec3 where
  x : ℚ
  y : ℚ
  z : ℚ
deriving DecidableEq, Repr

/-- A `SpatialObject`: an `Object3D` with a position and a (pre-computed)
bounding box, as consumed by `ThreeSpatialHashGrid.add`. -/
structure Obj where
  pos : Vec3
  bbMin : Vec3
  bbMax : Vec3
deriving DecidableEq, Repr

instance : Inhabited Obj := ⟨⟨⟨0, 0, 0⟩, ⟨0, 0, 0⟩, ⟨0, 0, 0⟩⟩⟩

/-- The state of a `ThreeSpatialHashGrid`: the underlying grid, the public
`clients` array (as client ids, in push order) and the table of added
objects (a client's `metadata` indexes into it). -/
structure TWorld where
  world : World
  clients : List ℕ
  objects : List Obj
deriving DecidableEq, Repr

/-- `ThreeSpatialHashGrid.add`: bucket the object at world coordinates
`(position.x, position.z)` with footprint `(bb.max.x - bb.min.x,
bb.max.z - bb.min.z)`, and push the new client. -/
def add (t : TWorld) (o : Obj) : TWorld :=
  let oid := t.objects.length
  let r := newClient t.world o.pos.x o.pos.z (o.bbMax.x - o.bbMin.x) (o.bbMax.z - o.bbMin.z) oid
  { world := r.1, clients := t.clients ++ [r.2], objects := t.objects ++ [o] }

/-- One iteration of `ThreeSpatialHashGrid.update`: overwrite the client's
stored position from its object — the source reads `position.x` and
`position.y` (not `.z`) — then `updateClient`. -/
def updateStep (objects : List Obj) (w : World) (cid : ℕ) : Except String World :=
  let c := w.heap.getD cid default
  let o := objects.getD c.metadata default
  let c' := { c with posX := o.pos.x, posY := o.pos.y }
  updateClient { w with heap := w.heap.set cid c' } cid

/-- `ThreeSpatialHashGrid.update`: refresh every client in `clients` order. -/
def update (t : TWorld) : Except String TWorld :=
  (t.clients.foldlM (updateStep t.objects) t.world).map
    (fun w => { t with world := w })

/-- The loop of `ThreeSpatialHashGrid.dispose`: `remove(clients[i])` then
`clients.splice(i, 1)` while `i` keeps incrementing — exactly the source's
interleaving of mutation and index advance.  The loop body shrinks the array
by one while `i` grows by one, so starting it with `fuel = ids.length`
(strictly more than the possible number of iterations) makes the structural
`fuel` recursion equivalent to the source's `while`-style loop; the
zero-fuel branch is unreachable from `dispose`. -/
def disposeLoop : ℕ → World → List ℕ → ℕ → Except String (World × List ℕ)
  | 0, w, ids, _ => .ok (w, ids)
  | fuel + 1, w, ids, i =>
    if h : i < ids.length then do
      let w' ← removeClient w (ids.get ⟨i, h⟩)
      disposeLoop fuel w' (ids.eraseIdx i) (i + 1)
    else .ok (w, ids)

/-- `ThreeSpatialHashGrid.dispose` (the debug group clearing is rendering
only and not modelled). -/
def dispose (t : TWorld) : Except String TWorld :=
  (disposeLoop t.clients.length t.world t.clients 0).map
    (fun r => { t with world := r.1, clients := r.2 })

end ThreeSpatialHashGrid

namespace SpatialHashGrid

/-- First-occurrence deduplication relative to an already-seen set: the pure
specification of what `findNear`'s `_queryId` stamping computes. -/
def dedupFOAux (seen : List ℕ) : List ℕ → List ℕ
  | [] => []
  | x :: xs => if x ∈ seen then dedupFOAux seen xs else x :: dedupFOAux (x :: seen) xs

/-- A 4×4 demo grid over the world rectangle `[0,4] × [0,4]`. -/
def demoGrid : World := mkWorld 0 0 4 4 4 4

/-- The demo grid with one client of extent `(1,1)` inserted at `(2,2)`;
its span is the single cell `(1,1)`. -/
def demoGrid1 : World := (newClient demoGrid 2 2 1 1 0).1

/-- The demo grid whose heap holds one not-yet-inserted client record with a
zero extent at `(2,2)` (as `newClient` allocates it just before `insert`). -/
def demoGridZero : World :=
  { demoGrid with
    heap := [{ posX := 2, posY := 2, dimW := 0, dimH := 0, spanMin := none,
               spanMax := none, nodes := none, queryId := -1, metadata := 0 }] }

end SpatialHashGrid

namespace ThreeSpatialHashGrid

open SpatialHashGrid

/-- A unit-box object standing at world position `(1, 0, 2)`: note that its
`y` (height) coordinate differs from its `z` coordinate. -/
def demoObj : Obj := ⟨⟨1, 0, 2⟩, ⟨0, 0, 0⟩, ⟨1, 1, 1⟩⟩

/-- A second unit-box object at `(3, 0, 3)`. -/
def demoObj2 : Obj := ⟨⟨3, 0, 3⟩, ⟨0, 0, 0⟩, ⟨1, 1, 1⟩⟩

/-- A `ThreeSpatialHashGrid` over the demo grid with `demoObj` added. -/
def demoT1 : TWorld := add ⟨demoGrid, [], []⟩ demoObj

/-- A `ThreeSpatialHashGrid` over the demo grid with both objects added. -/
def demoT2 : TWorld := add demoT1 demoObj2

end ThreeSpatialHashGrid

/-! ## List-level helper lemmas -/

namespace SpatialHashGrid

theorem length_modifyNth (f : α → α) : ∀ (n : ℕ) (l : List α),
    (modifyNth f n l).length = l.length
  | n, [] => by cases n <;> rfl
  | 0, _ :: _ => rfl
  | n + 1, _ :: as => congrArg (· + 1) (length_modifyNth f n as)

theorem getD_modifyNth (f : α → α) :
    ∀ (n : ℕ) (l : List α) (m : ℕ) (d : α),
      (modifyNth f n l).getD m d =
        if n = m ∧ m < l.length then f (l.getD m d) else l.getD m d
  | _, [], m, d => by simp [modifyNth]
  | 0, a :: as, 0, d => by simp [modifyNth]
  | 0, a :: as, m + 1, d => by simp [modifyNth]
  | n + 1, a :: as, 0, d => by simp [modifyNth]
  | n + 1, a :: as, m + 1, d => by
    simp only [modifyNth, List.getD_cons_succ, getD_modifyNth f n as m d,
      List.length_cons]
    by_cases h : n = m ∧ m < as.length
    · rw [if_pos h, if_pos ⟨by omega, by omega⟩]
    · rw [if_neg h, if_neg (by omega)]

theorem getD_set_self (a d : α) : ∀ (l : List α) (n : ℕ), n < l.length →
    (l.set n a).getD n d = a
  | _ :: _, 0, _ => rfl
  | _ :: as, n + 1, h => getD_set_self a d as n (by simpa using h)

theorem getD_set_ne (a d : α) : ∀ (l : List α) (n m : ℕ), n ≠ m →
    (l.set n a).getD m d = l.getD m d
  | [], _, _, _ => by simp
  | _ :: _, 0, 0, h => absurd rfl h
  | _ :: _, 0, _ + 1, _ => by simp
  | _ :: _, _ + 1, 0, _ => by simp
  | _ :: as, n + 1, m + 1, h => by
    simpa using getD_set_ne a d as n m (by omega)

theorem getD_mem (d : α) : ∀ (l : List α) (n : ℕ), n < l.length → l.getD n d ∈ l
  | a :: _, 0, _ => List.mem_cons_self a _
  | _ :: as, n + 1, h =>
    List.mem_cons_of_mem _ (getD_mem d as n (by simpa using h))

theorem getD_concat_length (a d : α) : ∀ (l : List α), (l ++ [a]).getD l.length d = a
  | [] => rfl
  | _ :: as => getD_concat_length a d as

theorem getD_map_range (f : ℕ → α) (n i : ℕ) (d : α) (h : i < n) :
    ((List.range n).map f).getD i d = f i := by
  rw [List.getD_eq_getElem?_getD, List.getElem?_map, List.getElem?_range h]
  rfl

theorem mem_intRange {a b x : ℤ} : x ∈ intRange a b ↔ a ≤ x ∧ x ≤ b := by
  simp only [intRange, List.mem_map, List.mem_range]
  constructor
  · rintro ⟨k, hk, rfl⟩
    omega
  · rintro ⟨h1, h2⟩
    refine ⟨(x - a).toNat, by omega, by omega⟩

theorem nodup_intRange (a b : ℤ) : (intRange a b).Nodup := by
  unfold intRange
  refine List.Nodup.map ?_ (List.nodup_range _)
  intro k1 k2 h
  have h' : a + (k1 : ℤ) = a + (k2 : ℤ) := h
  omega

theorem mem_spanCells {i1 i2 p : ℤ × ℤ} :
    p ∈ spanCells i1 i2 ↔ i1.1 ≤ p.1 ∧ p.1 ≤ i2.1 ∧ i1.2 ≤ p.2 ∧ p.2 ≤ i2.2 := by
  obtain ⟨px, py⟩ := p
  simp only [spanCells, List.mem_flatMap, List.mem_map, mem_intRange, Prod.mk.injEq]
  constructor
  · rintro ⟨x, hx, y, hy, rfl, rfl⟩
    exact ⟨hx.1, hx.2, hy.1, hy.2⟩
  · rintro ⟨h1, h2, h3, h4⟩
    exact ⟨px, ⟨h1, h2⟩, py, ⟨h3, h4⟩, rfl, rfl⟩

theorem nodup_spanCells (i1 i2 : ℤ × ℤ) : (spanCells i1 i2).Nodup := by
  unfold spanCells
  rw [List.nodup_flatMap]
  constructor
  · intro x _
    refine List.Nodup.map ?_ (nodup_intRange _ _)
    intro y1 y2 h
    exact (Prod.mk.injEq .. ▸ h).2
  · refine (nodup_intRange _ _).imp ?_
    intro x1 x2 hne p hp1 hp2
    obtain ⟨y1, _, rfl⟩ := List.mem_map.1 hp1
    obtain ⟨y2, _, h⟩ := List.mem_map.1 hp2
    exact hne ((Prod.mk.injEq .. ▸ h).1.symm)

end SpatialHashGrid

/-! ## Cell-array access lemmas -/

namespace SpatialHashGrid

theorem getD_of_le (d : α) : ∀ (l : List α) (n : ℕ), l.length ≤ n → l.getD n d = d
  | [], n, _ => by cases n <;> rfl
  | _ :: _, 0, h => absurd h (by simp)
  | _ :: as, n + 1, h => getD_of_le d as n (by simpa using h)

theorem bucketAt_neg {x y : ℤ} (cells : List (List Bucket)) (h : ¬(0 ≤ x ∧ 0 ≤ y)) :
    bucketAt cells x y = [] := by
  unfold bucketAt
  rw [if_neg h]

theorem bucketAt_pos {x y : ℤ} (cells : List (List Bucket)) (h : 0 ≤ x ∧ 0 ≤ y) :
    bucketAt cells x y = (cells.getD x.toNat []).getD y.toNat [] := by
  unfold bucketAt
  rw [if_pos h]

theorem inCells_of_mem_bucketAt {cells : List (List Bucket)} {x y : ℤ} {bn : BNode}
    (h : bn ∈ bucketAt cells x y) : inCells cells x y := by
  by_cases hxy : 0 ≤ x ∧ 0 ≤ y
  · rw [bucketAt_pos cells hxy] at h
    refine ⟨hxy.1, hxy.2, ?_, ?_⟩
    · by_contra hlen
      rw [getD_of_le ([] : List Bucket) cells x.toNat (by omega)] at h
      simp at h
    · by_contra hlen
      rw [getD_of_le ([] : Bucket) (cells.getD x.toNat []) y.toNat (by omega)] at h
      simp at h
  · rw [bucketAt_neg cells hxy] at h
    simp at h

theorem bucketAt_modifyBucket (cells : List (List Bucket)) (x y : ℤ)
    (f : Bucket → Bucket) (q1 q2 : ℤ) :
    bucketAt (modifyBucket cells x y f) q1 q2 =
      if x = q1 ∧ y = q2 ∧ inCells cells x y then f (bucketAt cells q1 q2)
      else bucketAt cells q1 q2 := by
  by_cases hx : x = q1
  · subst hx
    by_cases hy : y = q2
    · subst hy
      by_cases hxy : 0 ≤ x ∧ 0 ≤ y
      · unfold bucketAt modifyBucket inCells
        simp only [if_pos hxy, getD_modifyNth]
        rw [apply_ite (fun l : List Bucket => List.getD l y.toNat ([] : Bucket))]
        simp only [getD_modifyNth]
        split_ifs <;> first | rfl | (exfalso; simp only [true_and] at *; omega)
      · unfold bucketAt modifyBucket inCells
        simp only [if_neg hxy]
        rw [if_neg (fun h => hxy ⟨h.2.2.1, h.2.2.2.1⟩)]
    · rw [if_neg (fun h => hy h.2.1)]
      by_cases hxy : 0 ≤ x ∧ 0 ≤ y
      · by_cases hq : 0 ≤ x ∧ 0 ≤ q2
        · rw [bucketAt_pos _ hq, bucketAt_pos _ hq]
          unfold modifyBucket
          rw [if_pos hxy, getD_modifyNth]
          rw [apply_ite (fun l : List Bucket => List.getD l q2.toNat ([] : Bucket))]
          simp only [getD_modifyNth]
          split_ifs <;> first | rfl | (exfalso; simp only [true_and] at *; omega)
        · rw [bucketAt_neg _ hq, bucketAt_neg _ hq]
      · unfold modifyBucket
        rw [if_neg hxy]
  · rw [if_neg (fun h => hx h.1)]
    by_cases hxy : 0 ≤ x ∧ 0 ≤ y
    · by_cases hq : 0 ≤ q1 ∧ 0 ≤ q2
      · rw [bucketAt_pos _ hq, bucketAt_pos _ hq]
        unfold modifyBucket
        rw [if_pos hxy, getD_modifyNth]
        rw [if_neg (by omega)]
      · rw [bucketAt_neg _ hq, bucketAt_neg _ hq]
    · unfold modifyBucket
      rw [if_neg hxy]

theorem inCells_modifyBucket (cells : List (List Bucket)) (x y : ℤ)
    (f : Bucket → Bucket) (q1 q2 : ℤ) :
    inCells (modifyBucket cells x y f) q1 q2 ↔ inCells cells q1 q2 := by
  unfold inCells modifyBucket
  by_cases hxy : 0 ≤ x ∧ 0 ≤ y
  · simp only [if_pos hxy, length_modifyNth, getD_modifyNth]
    rw [apply_ite List.length]
    simp only [length_modifyNth, ite_self]
  · rw [if_neg hxy]

theorem inCells_foldl_modify (F : ℤ × ℤ → Bucket → Bucket) :
    ∀ (ps : List (ℤ × ℤ)) (cells : List (List Bucket)) (q1 q2 : ℤ),
      inCells (ps.foldl (fun cs p => modifyBucket cs p.1 p.2 (F p)) cells) q1 q2 ↔
        inCells cells q1 q2
  | [], _, _, _ => Iff.rfl
  | p :: ps, cells, q1, q2 =>
    (inCells_foldl_modify F ps _ q1 q2).trans (inCells_modifyBucket cells p.1 p.2 (F p) q1 q2)

theorem bucketAt_foldl_modify (F : ℤ × ℤ → Bucket → Bucket) :
    ∀ (ps : List (ℤ × ℤ)), ps.Nodup → ∀ (cells : List (List Bucket)) (q : ℤ × ℤ),
      bucketAt (ps.foldl (fun cs p => modifyBucket cs p.1 p.2 (F p)) cells) q.1 q.2 =
        if q ∈ ps ∧ inCells cells q.1 q.2 then F q (bucketAt cells q.1 q.2)
        else bucketAt cells q.1 q.2
  | [], _, cells, q => by simp
  | p :: ps, hnd, cells, q => by
    have htail : ps.Nodup := (List.nodup_cons.1 hnd).2
    have hhead : p ∉ ps := (List.nodup_cons.1 hnd).1
    rw [List.foldl_cons, bucketAt_foldl_modify F ps htail _ q]
    rw [bucketAt_modifyBucket cells p.1 p.2 (F p) q.1 q.2]
    by_cases hmem : q ∈ ps
    · have hpq : ¬(p.1 = q.1 ∧ p.2 = q.2 ∧ inCells cells p.1 p.2) := by
        rintro ⟨h1, h2, -⟩
        exact hhead (by rwa [show p = q from Prod.ext h1 h2])
      rw [if_neg hpq]
      simp only [inCells_modifyBucket]
      by_cases hic : inCells cells q.1 q.2
      · rw [if_pos ⟨hmem, hic⟩, if_pos ⟨List.mem_cons_of_mem p hmem, hic⟩]
      · rw [if_neg (fun h => hic h.2), if_neg (fun h => hic h.2)]
    · simp only [inCells_modifyBucket]
      rw [if_neg (fun h => hmem h.1)]
      by_cases hqp : q = p
      · subst hqp
        by_cases hic : inCells cells q.1 q.2
        · rw [if_pos ⟨rfl, rfl, hic⟩, if_pos ⟨List.mem_cons_self q ps, hic⟩]
        · rw [if_neg (fun h => hic h.2.2), if_neg (fun h => hic h.2)]
      · have : ¬(p.1 = q.1 ∧ p.2 = q.2 ∧ inCells cells p.1 p.2) := by
          rintro ⟨h1, h2, -⟩
          exact hqp (Prod.ext h1 h2).symm
        rw [if_neg this]
        rw [if_neg (fun h => (List.mem_cons.1 h.1).elim hqp hmem)]

theorem bucketAt_foldl_suffix (F : ℤ × ℤ → Bucket → Bucket)
    (hF : ∀ p b, b <:+ F p b) :
    ∀ (ps : List (ℤ × ℤ)) (cells : List (List Bucket)) (q1 q2 : ℤ),
      bucketAt cells q1 q2 <:+
        bucketAt (ps.foldl (fun cs p => modifyBucket cs p.1 p.2 (F p)) cells) q1 q2
  | [], _, _, _ => List.suffix_refl _
  | p :: ps, cells, q1, q2 => by
    rw [List.foldl_cons]
    refine List.IsSuffix.trans ?_ (bucketAt_foldl_suffix F hF ps _ q1 q2)
    rw [bucketAt_modifyBucket cells p.1 p.2 (F p) q1 q2]
    split_ifs with h
    · rcases h with ⟨h1, h2, -⟩
      rw [← h1, ← h2]
      exact hF p _
    · exact List.suffix_refl _

theorem insertNodesGrid_getD (base nx ny xi yi : ℕ) (hx : xi < nx) (hy : yi < ny) :
    ((insertNodesGrid base nx ny).getD xi []).getD yi 0 = base + xi * ny + yi := by
  unfold insertNodesGrid
  rw [getD_map_range _ _ _ _ hx, getD_map_range _ _ _ _ hy]

end SpatialHashGrid

/-! ## Arithmetic lemmas about the index mapping -/

namespace SpatialHashGrid

theorem sat_nonneg (x : ℚ) : 0 ≤ sat x :=
  le_min (le_max_right x 0) zero_le_one

theorem sat_le_one (x : ℚ) : sat x ≤ 1 :=
  min_le_right _ _

theorem axisIndex_nonneg (n : ℕ) (hn : 1 ≤ n) (t : ℚ) : 0 ≤ axisIndex n t := by
  unfold axisIndex
  have h1 : (1 : ℚ) ≤ (n : ℚ) := by exact_mod_cast hn
  exact Int.floor_nonneg.mpr (mul_nonneg (sat_nonneg t) (by linarith))

theorem axisIndex_le (n : ℕ) (hn : 1 ≤ n) (t : ℚ) : axisIndex n t ≤ (n : ℤ) - 1 := by
  unfold axisIndex
  have h1 : (1 : ℚ) ≤ (n : ℚ) := by exact_mod_cast hn
  have h2 : sat t * ((n : ℚ) - 1) ≤ (n : ℚ) - 1 := by
    have := mul_le_mul_of_nonneg_right (sat_le_one t) (by linarith : (0 : ℚ) ≤ (n : ℚ) - 1)
    simpa using this
  have h3 : ((n : ℚ) - 1) = (((n : ℤ) - 1 : ℤ) : ℚ) := by push_cast; ring
  calc ⌊sat t * ((n : ℚ) - 1)⌋ ≤ ⌊((n : ℚ) - 1)⌋ := Int.floor_le_floor h2
    _ = (n : ℤ) - 1 := by rw [h3, Int.floor_intCast]

/-! ## List extensionality and shape preservation -/

theorem list_ext_getD (d : α) : ∀ (l1 l2 : List α), l1.length = l2.length →
    (∀ i, l1.getD i d = l2.getD i d) → l1 = l2
  | [], [], _, _ => rfl
  | [], _ :: _, hlen, _ => by simp at hlen
  | _ :: _, [], hlen, _ => by simp at hlen
  | a :: as, b :: bs, hlen, hget => by
    have h0 : a = b := hget 0
    rw [h0, list_ext_getD d as bs (by simpa using hlen) (fun i => hget (i + 1))]

theorem length_modifyBucket (cells : List (List Bucket)) (x y : ℤ) (f : Bucket → Bucket) :
    (modifyBucket cells x y f).length = cells.length := by
  unfold modifyBucket
  split_ifs
  · exact length_modifyNth _ _ _
  · rfl

theorem row_length_modifyBucket (cells : List (List Bucket)) (x y : ℤ)
    (f : Bucket → Bucket) (i : ℕ) :
    ((modifyBucket cells x y f).getD i []).length = (cells.getD i []).length := by
  unfold modifyBucket
  split_ifs
  · rw [getD_modifyNth]
    rw [apply_ite List.length]
    simp only [length_modifyNth, ite_self]
  · rfl

theorem length_foldl_modify (F : ℤ × ℤ → Bucket → Bucket) :
    ∀ (ps : List (ℤ × ℤ)) (cells : List (List Bucket)),
      (ps.foldl (fun cs p => modifyBucket cs p.1 p.2 (F p)) cells).length = cells.length
  | [], _ => rfl
  | p :: ps, cells => by
    rw [List.foldl_cons, length_foldl_modify F ps _, length_modifyBucket]

theorem row_length_foldl_modify (F : ℤ × ℤ → Bucket → Bucket) :
    ∀ (ps : List (ℤ × ℤ)) (cells : List (List Bucket)) (i : ℕ),
      ((ps.foldl (fun cs p => modifyBucket cs p.1 p.2 (F p)) cells).getD i []).length =
        ((cells.getD i []).length)
  | [], _, _ => rfl
  | p :: ps, cells, i => by
    rw [List.foldl_cons, row_length_foldl_modify F ps _ i, row_length_modifyBucket]

/-- Two cell arrays with the same shape and the same bucket at every cell
address are equal. -/
theorem cells_ext (c1 c2 : List (List Bucket)) (hlen : c1.length = c2.length)
    (hrow : ∀ i : ℕ, (c1.getD i []).length = (c2.getD i []).length)
    (hbucket : ∀ x y : ℤ, bucketAt c1 x y = bucketAt c2 x y) : c1 = c2 := by
  refine list_ext_getD [] c1 c2 hlen (fun i => ?_)
  refine list_ext_getD [] _ _ (hrow i) (fun j => ?_)
  have := hbucket (i : ℤ) (j : ℤ)
  rw [bucketAt_pos _ ⟨Int.ofNat_nonneg i, Int.ofNat_nonneg j⟩,
      bucketAt_pos _ ⟨Int.ofNat_nonneg i, Int.ofNat_nonneg j⟩] at this
  simpa using this

end SpatialHashGrid

/-! ## Characterisation of `insert` and `remove` on the cell array -/

namespace SpatialHashGrid

theorem eraseP_node_cons (nid c : ℕ) (b : Bucket) :
    (({ node := nid, client := c } : BNode) :: b).eraseP (fun bn => bn.node == nid) = b :=
  List.eraseP_cons_of_pos (by simp)

/-- What `insert` does to the heap: store the recomputed span and the fresh
node grid on the client. -/
theorem insertClient_heap (w : World) (cid : ℕ) :
    (insertClient w cid).heap = w.heap.set cid
      { w.heap.getD cid default with
        spanMin := some (clientSpanMin w (w.heap.getD cid default)),
        spanMax := some (clientSpanMax w (w.heap.getD cid default)),
        nodes := some (insertNodesGrid w.nextNode
          ((clientSpanMax w (w.heap.getD cid default)).1 + 1 -
            (clientSpanMin w (w.heap.getD cid default)).1).toNat
          ((clientSpanMax w (w.heap.getD cid default)).2 + 1 -
            (clientSpanMin w (w.heap.getD cid default)).2).toNat) } := rfl

/-- What `insert` does to the cell array: prepend one fresh node per covered
in-range cell. -/
theorem insertClient_cells (w : World) (cid : ℕ) :
    (insertClient w cid).cells =
      (spanCells (clientSpanMin w (w.heap.getD cid default))
          (clientSpanMax w (w.heap.getD cid default))).foldl
        (fun cs p => modifyBucket cs p.1 p.2
          (fun b => BNode.mk
            (w.nextNode +
              (p.1 - (clientSpanMin w (w.heap.getD cid default)).1).toNat *
                ((clientSpanMax w (w.heap.getD cid default)).2 + 1 -
                  (clientSpanMin w (w.heap.getD cid default)).2).toNat +
              (p.2 - (clientSpanMin w (w.heap.getD cid default)).2).toNat)
            cid :: b))
        w.cells := rfl

/-- `insert` immediately followed by `remove` of the same client restores
the cell array exactly: the fresh node sits at the head of each covered
bucket, and the splice removes precisely it. -/
theorem removeClient_insertClient_cells (w : World) (cid : ℕ)
    (hcid : cid < w.heap.length) :
    ∃ w', removeClient (insertClient w cid) cid = .ok w' ∧ w'.cells = w.cells := by
  have hheap : (insertClient w cid).heap.getD cid default =
      { w.heap.getD cid default with
        spanMin := some (clientSpanMin w (w.heap.getD cid default)),
        spanMax := some (clientSpanMax w (w.heap.getD cid default)),
        nodes := some (insertNodesGrid w.nextNode
          ((clientSpanMax w (w.heap.getD cid default)).1 + 1 -
            (clientSpanMin w (w.heap.getD cid default)).1).toNat
          ((clientSpanMax w (w.heap.getD cid default)).2 + 1 -
            (clientSpanMin w (w.heap.getD cid default)).2).toNat) } := by
    rw [insertClient_heap]
    exact getD_set_self _ _ _ _ hcid
  rw [removeClient, hheap]
  refine ⟨_, rfl, ?_⟩
  rw [insertClient_cells]
  apply cells_ext
  · rw [length_foldl_modify, length_foldl_modify]
  · intro i
    rw [row_length_foldl_modify, row_length_foldl_modify]
  · intro x y
    rw [bucketAt_foldl_modify _ _ (nodup_spanCells _ _) _ (x, y),
        bucketAt_foldl_modify _ _ (nodup_spanCells _ _) _ (x, y)]
    simp only [inCells_foldl_modify]
    by_cases hmem : ((x, y) : ℤ × ℤ) ∈ spanCells (clientSpanMin w (w.heap.getD cid default))
        (clientSpanMax w (w.heap.getD cid default))
    · by_cases hic : inCells w.cells x y
      · rw [if_pos ⟨hmem, hic⟩, if_pos ⟨hmem, hic⟩]
        rw [insertNodesGrid_getD]
        · exact eraseP_node_cons _ _ _
        · have := mem_spanCells.1 hmem
          omega
        · have := mem_spanCells.1 hmem
          omega
      · rw [if_neg (fun h => hic h.2), if_neg (fun h => hic h.2)]
    · rw [if_neg (fun h => hmem h.1), if_neg (fun h => hmem h.1)]

end SpatialHashGrid

/-! ## The query loop: stamping is first-occurrence deduplication -/

namespace SpatialHashGrid

theorem mem_dedupFOAux : ∀ (seen l : List ℕ) (x : ℕ),
    x ∈ dedupFOAux seen l ↔ x ∈ l ∧ x ∉ seen
  | seen, [], x => by simp [dedupFOAux]
  | seen, y :: ys, x => by
    unfold dedupFOAux
    by_cases hy : y ∈ seen
    · rw [if_pos hy, mem_dedupFOAux seen ys x]
      constructor
      · rintro ⟨h1, h2⟩
        exact ⟨List.mem_cons_of_mem _ h1, h2⟩
      · rintro ⟨h1, h2⟩
        rcases List.mem_cons.1 h1 with rfl | h1
        · exact absurd hy h2
        · exact ⟨h1, h2⟩
    · rw [if_neg hy]
      constructor
      · intro h
        rcases List.mem_cons.1 h with rfl | h
        · exact ⟨List.mem_cons_self _ _, hy⟩
        · have := (mem_dedupFOAux (y :: seen) ys x).1 h
          exact ⟨List.mem_cons_of_mem _ this.1,
            fun hx => this.2 (List.mem_cons_of_mem _ hx)⟩
      · rintro ⟨h1, h2⟩
        rcases List.mem_cons.1 h1 with rfl | h1
        · exact List.mem_cons_self _ _
        · by_cases hxy : x = y
          · subst hxy
            exact List.mem_cons_self _ _
          · exact List.mem_cons_of_mem _ ((mem_dedupFOAux (y :: seen) ys x).2
              ⟨h1, fun hx => (List.mem_cons.1 hx).elim hxy h2⟩)

theorem nodup_dedupFOAux : ∀ (seen l : List ℕ), (dedupFOAux seen l).Nodup
  | _, [] => List.nodup_nil
  | seen, y :: ys => by
    unfold dedupFOAux
    by_cases hy : y ∈ seen
    · rw [if_pos hy]
      exact nodup_dedupFOAux seen ys
    · rw [if_neg hy]
      refine List.nodup_cons.2 ⟨?_, nodup_dedupFOAux (y :: seen) ys⟩
      intro hmem
      exact ((mem_dedupFOAux _ _ _).1 hmem).2 (List.mem_cons_self _ _)

theorem findNearLoop_spec (qid : ℤ) :
    ∀ (order : List ℕ) (heap : List Client) (acc seen : List ℕ),
      (∀ cid ∈ order, cid < heap.length) →
      (∀ cid, cid < heap.length → ((heap.getD cid default).queryId = qid ↔ cid ∈ seen)) →
      (findNearLoop qid heap order acc).2 = acc ++ dedupFOAux seen order
  | [], heap, acc, seen, _, _ => by simp [findNearLoop, dedupFOAux]
  | cid :: rest, heap, acc, seen, hlt, hstamp => by
    simp only [findNearLoop, dedupFOAux]
    have hcid : cid < heap.length := hlt cid (List.mem_cons_self _ _)
    by_cases hq : (heap.getD cid default).queryId = qid
    · rw [if_pos hq, if_pos ((hstamp cid hcid).1 hq)]
      exact findNearLoop_spec qid rest heap acc seen
        (fun c hc => hlt c (List.mem_cons_of_mem _ hc)) hstamp
    · rw [if_neg hq, if_neg (fun hmem => hq ((hstamp cid hcid).2 hmem))]
      have hlt' : ∀ c ∈ rest, c < (heap.set cid
          { heap.getD cid default with queryId := qid }).length := by
        intro c hc
        rw [List.length_set]
        exact hlt c (List.mem_cons_of_mem _ hc)
      have hstamp' : ∀ c, c < (heap.set cid
          { heap.getD cid default with queryId := qid }).length →
          (((heap.set cid { heap.getD cid default with queryId := qid }).getD c
            default).queryId = qid ↔ c ∈ cid :: seen) := by
        intro c hc
        rw [List.length_set] at hc
        by_cases hccid : c = cid
        · subst hccid
          rw [getD_set_self _ _ _ _ hcid]
          simp
        · rw [getD_set_ne _ _ _ _ _ (fun h => hccid h.symm)]
          rw [hstamp c hc]
          constructor
          · exact fun h => List.mem_cons_of_mem _ h
          · intro h
            rcases List.mem_cons.1 h with h | h
            · exact absurd h hccid
            · exact h
      refine (findNearLoop_spec qid rest _ (acc ++ [cid]) (cid :: seen) hlt' hstamp').trans ?_
      simp

theorem mem_visitOrder {cells : List (List Bucket)} {i1 i2 : ℤ × ℤ} {cid : ℕ} :
    cid ∈ visitOrder cells i1 i2 ↔
      ∃ p : ℤ × ℤ, p ∈ spanCells i1 i2 ∧ clientInBucket cid (bucketAt cells p.1 p.2) := by
  unfold visitOrder clientInBucket
  simp only [List.mem_flatMap, List.mem_map]

end SpatialHashGrid

/-! ## Range of the index mapping, and the main query theorem -/

namespace SpatialHashGrid

theorem getCellIndex_range (w : World) (hx : 1 ≤ w.dimsX) (hy : 1 ≤ w.dimsY) (px py : ℚ) :
    0 ≤ (getCellIndex w px py).1 ∧ (getCellIndex w px py).1 ≤ (w.dimsX : ℤ) - 1 ∧
      0 ≤ (getCellIndex w px py).2 ∧ (getCellIndex w px py).2 ≤ (w.dimsY : ℤ) - 1 :=
  ⟨axisIndex_nonneg _ hx _, axisIndex_le _ hx _, axisIndex_nonneg _ hy _, axisIndex_le _ hy _⟩

/-- Under the constructor invariants, the addressable cells are exactly
`[0, dimsX) × [0, dimsY)`. -/
theorem inCells_iff_of_shape (w : World) (hclen : w.cells.length = w.dimsX)
    (hrows : ∀ row ∈ w.cells, row.length = w.dimsY) (x y : ℤ) :
    inCells w.cells x y ↔ 0 ≤ x ∧ x < (w.dimsX : ℤ) ∧ 0 ≤ y ∧ y < (w.dimsY : ℤ) := by
  unfold inCells
  constructor
  · rintro ⟨h1, h2, h3, h4⟩
    have hr : (w.cells.getD x.toNat []).length = w.dimsY :=
      hrows _ (getD_mem _ _ _ h3)
    omega
  · rintro ⟨h1, h2, h3, h4⟩
    have hx : x.toNat < w.cells.length := by omega
    have hr : (w.cells.getD x.toNat []).length = w.dimsY :=
      hrows _ (getD_mem _ _ _ hx)
    exact ⟨h1, h3, hx, by omega⟩

/-- C1 body, provided as a reusable lemma: under `WF` the query returns each
client at most once, and returns exactly the inserted clients whose stored
span shares at least one cell with the query rectangle. -/
theorem findNear_exact_body (w : World) (px py bw bh : ℚ) (hWF : WF w) :
    ((findNear w px py bw bh).2).Nodup ∧
    ∀ cid : ℕ, cid ∈ (findNear w px py bw bh).2 ↔
      ∃ p : ℤ × ℤ,
        spanCovers (w.heap.getD cid default).spanMin
          (w.heap.getD cid default).spanMax p ∧
        p ∈ spanCells (getCellIndex w (px - bw / 2) (py - bh / 2))
          (getCellIndex w (px + bw / 2) (py + bh / 2)) := by
  obtain ⟨hdx, hdy, hbx, hby, hclen, hrows, hqlt, hcells⟩ := hWF
  have hlt : ∀ cid ∈ visitOrder w.cells (getCellIndex w (px - bw / 2) (py - bh / 2))
      (getCellIndex w (px + bw / 2) (py + bh / 2)), cid < w.heap.length := by
    intro cid hcid
    obtain ⟨p, hp, bn, hbn, hbnc⟩ := mem_visitOrder.1 hcid
    have hic := inCells_of_mem_bucketAt hbn
    have hrange := (inCells_iff_of_shape w hclen hrows p.1 p.2).1 hic
    have hx : p.1.toNat ∈ List.range w.dimsX := List.mem_range.2 (by omega)
    have hy : p.2.toNat ∈ List.range w.dimsY := List.mem_range.2 (by omega)
    have e1 : ((p.1.toNat : ℕ) : ℤ) = p.1 := Int.toNat_of_nonneg hrange.1
    have e2 : ((p.2.toNat : ℕ) : ℤ) = p.2 := Int.toNat_of_nonneg hrange.2.2.1
    have hbn' : bn ∈ bucketAt w.cells ((p.1.toNat : ℕ) : ℤ) ((p.2.toNat : ℕ) : ℤ) := by
      rw [e1, e2]
      exact hbn
    have hlt1 := (hcells p.1.toNat hx p.2.toNat hy).1 bn hbn'
    exact hbnc ▸ hlt1
  have hstamp : ∀ cid, cid < w.heap.length →
      ((w.heap.getD cid default).queryId = w.queryIds ↔ cid ∈ ([] : List ℕ)) := by
    intro cid hcid
    simp only [List.not_mem_nil, iff_false]
    exact (hqlt _ (getD_mem _ _ _ hcid)).ne
  have hres : (findNear w px py bw bh).2 =
      dedupFOAux [] (visitOrder w.cells (getCellIndex w (px - bw / 2) (py - bh / 2))
        (getCellIndex w (px + bw / 2) (py + bh / 2))) := by
    have hstep : (findNear w px py bw bh).2 =
        (findNearLoop w.queryIds w.heap
          (visitOrder w.cells (getCellIndex w (px - bw / 2) (py - bh / 2))
            (getCellIndex w (px + bw / 2) (py + bh / 2))) []).2 := rfl
    rw [hstep, findNearLoop_spec w.queryIds _ w.heap [] [] hlt hstamp]
    rfl
  constructor
  · rw [hres]
    exact nodup_dedupFOAux _ _
  · intro cid
    rw [hres, mem_dedupFOAux]
    simp only [List.not_mem_nil, not_false_iff, and_true]
    rw [mem_visitOrder]
    constructor
    · rintro ⟨p, hp, bn, hbn, hbnc⟩
      have hic := inCells_of_mem_bucketAt hbn
      have hrange := (inCells_iff_of_shape w hclen hrows p.1 p.2).1 hic
      have hx : p.1.toNat ∈ List.range w.dimsX := List.mem_range.2 (by omega)
      have hy : p.2.toNat ∈ List.range w.dimsY := List.mem_range.2 (by omega)
      have e1 : ((p.1.toNat : ℕ) : ℤ) = p.1 := Int.toNat_of_nonneg hrange.1
      have e2 : ((p.2.toNat : ℕ) : ℤ) = p.2 := Int.toNat_of_nonneg hrange.2.2.1
      have hbn' : bn ∈ bucketAt w.cells ((p.1.toNat : ℕ) : ℤ) ((p.2.toNat : ℕ) : ℤ) := by
        rw [e1, e2]
        exact hbn
      have hcidlt : cid < w.heap.length :=
        hbnc ▸ (hcells p.1.toNat hx p.2.toNat hy).1 bn hbn'
      have hiff : clientInBucket cid
            (bucketAt w.cells ((p.1.toNat : ℕ) : ℤ) ((p.2.toNat : ℕ) : ℤ)) ↔
          spanCovers (w.heap.getD cid default).spanMin
            (w.heap.getD cid default).spanMax
            (((p.1.toNat : ℕ) : ℤ), ((p.2.toNat : ℕ) : ℤ)) :=
        (hcells p.1.toNat hx p.2.toNat hy).2 cid (List.mem_range.2 hcidlt)
      rw [e1, e2] at hiff
      have hcov := hiff.1 ⟨bn, hbn, hbnc⟩
      refine ⟨p, ?_, hp⟩
      rwa [Prod.mk.eta] at hcov
    · rintro ⟨p, hcov, hp⟩
      have h1 := mem_spanCells.1 hp
      have ra := getCellIndex_range w hdx hdy (px - bw / 2) (py - bh / 2)
      have rb := getCellIndex_range w hdx hdy (px + bw / 2) (py + bh / 2)
      have hrange : 0 ≤ p.1 ∧ p.1 < (w.dimsX : ℤ) ∧ 0 ≤ p.2 ∧ p.2 < (w.dimsY : ℤ) := by
        omega
      have hcidlt : cid < w.heap.length := by
        by_contra hge
        rw [getD_of_le default w.heap cid (by omega)] at hcov
        obtain ⟨hs, -⟩ := hcov
        rw [show (default : Client).spanMin = none from rfl] at hs
        simp at hs
      have hx : p.1.toNat ∈ List.range w.dimsX := List.mem_range.2 (by omega)
      have hy : p.2.toNat ∈ List.range w.dimsY := List.mem_range.2 (by omega)
      have hiff : clientInBucket cid
            (bucketAt w.cells ((p.1.toNat : ℕ) : ℤ) ((p.2.toNat : ℕ) : ℤ)) ↔
          spanCovers (w.heap.getD cid default).spanMin
            (w.heap.getD cid default).spanMax
            (((p.1.toNat : ℕ) : ℤ), ((p.2.toNat : ℕ) : ℤ)) :=
        (hcells p.1.toNat hx p.2.toNat hy).2 cid (List.mem_range.2 hcidlt)
      have e1 : ((p.1.toNat : ℕ) : ℤ) = p.1 := Int.toNat_of_nonneg hrange.1
      have e2 : ((p.2.toNat : ℕ) : ℤ) = p.2 := Int.toNat_of_nonneg hrange.2.2.1
      rw [e1, e2] at hiff
      have hcb := hiff.2 (by rw [Prod.mk.eta]; exact hcov)
      obtain ⟨bn, hbn, hbnc⟩ := hcb
      exact ⟨p, hp, bn, hbn, hbnc⟩

end SpatialHashGrid

/-! ## Reduction lemmas for `remove` and `updateClient` -/

namespace SpatialHashGrid

theorem removeClient_some (w : World) (cid : ℕ) (i1 i2 : ℤ × ℤ) (nds : List (List ℕ))
    (hmn : (w.heap.getD cid default).spanMin = some i1)
    (hmx : (w.heap.getD cid default).spanMax = some i2)
    (hnd : (w.heap.getD cid default).nodes = some nds) :
    removeClient w cid = .ok
      { w with
        cells := (spanCells i1 i2).foldl
          (fun cs p => modifyBucket cs p.1 p.2
            (fun b => b.eraseP (fun bn => bn.node ==
              (nds.getD (p.1 - i1.1).toNat []).getD (p.2 - i1.2).toNat 0)))
          w.cells,
        heap := w.heap.set cid
          { w.heap.getD cid default with
            spanMin := none, spanMax := none, nodes := none } } := by
  simp only [removeClient]
  rw [hmn, hmx, hnd]

theorem removeClient_no_span (w : World) (cid : ℕ)
    (h : (w.heap.getD cid default).spanMin = none ∨
      (w.heap.getD cid default).spanMax = none) :
    removeClient w cid = .error "Client has no min or max." := by
  simp only [removeClient]
  rcases hmn : (w.heap.getD cid default).spanMin with _ | mn
  · rcases (w.heap.getD cid default).spanMax with _ | mx <;> rfl
  · rcases hmx : (w.heap.getD cid default).spanMax with _ | mx
    · rfl
    · rcases h with h | h
      · exact absurd hmn (by rw [h]; exact fun hne => Option.noConfusion hne)
      · exact absurd hmx (by rw [h]; exact fun hne => Option.noConfusion hne)

theorem removeClient_no_nodes (w : World) (cid : ℕ) (i1 i2 : ℤ × ℤ)
    (hmn : (w.heap.getD cid default).spanMin = some i1)
    (hmx : (w.heap.getD cid default).spanMax = some i2)
    (hnd : (w.heap.getD cid default).nodes = none) :
    removeClient w cid = .error "Client has no nodes." := by
  simp only [removeClient]
  rw [hmn, hmx, hnd]

theorem updateClient_no_span (w : World) (cid : ℕ)
    (h : (w.heap.getD cid default).spanMin = none ∨
      (w.heap.getD cid default).spanMax = none) :
    updateClient w cid = .error "Client has no min/max cells." := by
  simp only [updateClient]
  rcases hmn : (w.heap.getD cid default).spanMin with _ | mn
  · rcases (w.heap.getD cid default).spanMax with _ | mx <;> rfl
  · rcases hmx : (w.heap.getD cid default).spanMax with _ | mx
    · rfl
    · rcases h with h | h
      · exact absurd hmn (by rw [h]; exact fun hne => Option.noConfusion hne)
      · exact absurd hmx (by rw [h]; exact fun hne => Option.noConfusion hne)

theorem updateClient_some (w : World) (cid : ℕ) (i1 i2 : ℤ × ℤ)
    (hmn : (w.heap.getD cid default).spanMin = some i1)
    (hmx : (w.heap.getD cid default).spanMax = some i2) :
    updateClient w cid =
      if i1 = clientSpanMin w (w.heap.getD cid default) ∧
          i2 = clientSpanMax w (w.heap.getD cid default)
      then .ok w
      else (do
        let w' ← removeClient w cid
        Except.ok (insertClient w' cid)) := by
  simp only [updateClient]
  rw [hmn, hmx]

end SpatialHashGrid

/-! ## The claims -/

namespace SpatialHashGrid

/-- C1: for every well-formed grid state and every call
`findNear(center, extent)`, the returned list contains exactly the distinct
inserted clients whose stored cell-rectangle (span) shares at least one cell
with the query's cell rectangle (computed with the same index mapping from
`center - extent/2` and `center + extent/2`); each such client appears
exactly once (`Nodup`), and no client with a disjoint span appears. -/
theorem claim_C1_findNear_exact (w : World) (px py bw bh : ℚ) (hWF : WF w) :
    ((findNear w px py bw bh).2).Nodup ∧
    ∀ cid : ℕ, cid ∈ (findNear w px py bw bh).2 ↔
      ∃ p : ℤ × ℤ,
        spanCovers (w.heap.getD cid default).spanMin
          (w.heap.getD cid default).spanMax p ∧
        p ∈ spanCells (getCellIndex w (px - bw / 2) (py - bh / 2))
          (getCellIndex w (px + bw / 2) (py + bh / 2)) :=
  findNear_exact_body w px py bw bh hWF

/-- Witness for C1: the demo grid with one inserted client is well-formed,
and the query result is duplicate-free. -/
theorem claim_C1_witness :
    WF demoGrid1 ∧ ((findNear demoGrid1 2 2 1 1).2).Nodup :=
  ⟨by decide, (claim_C1_findNear_exact demoGrid1 2 2 1 1 (by decide)).1⟩

/-- C2: for every grid state and every fresh client, `insert` (via
`newClient`) followed by `remove` restores every cell bucket to contents
identical to the state before the insert: the grid's cell array is
unchanged by the round trip. -/
theorem claim_C2_roundtrip (w : World) (px py dw dh : ℚ) (m : ℕ) :
    ∃ w', removeClient (newClient w px py dw dh m).1 (newClient w px py dw dh m).2 =
      .ok w' ∧ w'.cells = w.cells :=
  removeClient_insertClient_cells
    { w with heap := w.heap ++ [Client.mk px py dw dh none none none (-1) m] }
    w.heap.length (by simp)

/-- C3: `updateClient` on a client whose recomputed span (computed exactly
as in `insert`) equals its stored span returns without changing anything:
the result is the very same state, so every membership node (identified by
its allocation id) stays linked in the same cell, and no other grid state
changes. -/
theorem claim_C3_coherence_noop (w : World) (cid : ℕ)
    (hmn : (w.heap.getD cid default).spanMin =
      some (clientSpanMin w (w.heap.getD cid default)))
    (hmx : (w.heap.getD cid default).spanMax =
      some (clientSpanMax w (w.heap.getD cid default))) :
    updateClient w cid = .ok w := by
  rw [updateClient_some w cid _ _ hmn hmx, if_pos ⟨rfl, rfl⟩]

/-- Witness for C3: the demo client's stored span equals its recomputed
span, and `updateClient` returns the state unchanged. -/
theorem claim_C3_witness : updateClient demoGrid1 0 = .ok demoGrid1 :=
  claim_C3_coherence_noop demoGrid1 0 (by decide) (by decide)

/-- C4: for every position — including positions outside the grid bounds —
on a grid with at least one cell per axis and proper bounds, `getCellIndex`
returns an index inside `[0, dimsX-1] × [0, dimsY-1]`; consequently every
cell of a span or query rectangle built from two `getCellIndex` results is
in range, so the `cells[x][y]` accesses of `insert`, `remove` and
`findNear` never address an out-of-range slot.  (`getCellIndex` is a pure
function of its arguments by construction; the module-level `cellIndexX`/
`cellIndexY` temporaries of the source are overwritten on every call and
never observable.) -/
theorem claim_C4_index_range (w : World) (hdx : 1 ≤ w.dimsX) (hdy : 1 ≤ w.dimsY)
    (hbx : w.bMinX < w.bMaxX) (hby : w.bMinY < w.bMaxY) (px py ax ay bx bY : ℚ) :
    (0 ≤ (getCellIndex w px py).1 ∧ (getCellIndex w px py).1 ≤ (w.dimsX : ℤ) - 1 ∧
      0 ≤ (getCellIndex w px py).2 ∧ (getCellIndex w px py).2 ≤ (w.dimsY : ℤ) - 1) ∧
    ∀ q ∈ spanCells (getCellIndex w ax ay) (getCellIndex w bx bY),
      0 ≤ q.1 ∧ q.1 ≤ (w.dimsX : ℤ) - 1 ∧ 0 ≤ q.2 ∧ q.2 ≤ (w.dimsY : ℤ) - 1 := by
  refine ⟨getCellIndex_range w hdx hdy px py, ?_⟩
  intro q hq
  have h := mem_spanCells.1 hq
  have r1 := getCellIndex_range w hdx hdy ax ay
  have r2 := getCellIndex_range w hdx hdy bx bY
  omega

/-- Witness for C4: an out-of-bounds position on the demo grid clamps into
range. -/
theorem claim_C4_witness :
    1 ≤ demoGrid.dimsX ∧
    (0 ≤ (getCellIndex demoGrid 9 (-3)).1 ∧
      (getCellIndex demoGrid 9 (-3)).1 ≤ (demoGrid.dimsX : ℤ) - 1 ∧
      0 ≤ (getCellIndex demoGrid 9 (-3)).2 ∧
      (getCellIndex demoGrid 9 (-3)).2 ≤ (demoGrid.dimsY : ℤ) - 1) :=
  ⟨by decide,
    (claim_C4_index_range demoGrid (by decide) (by decide) (by decide) (by decide)
      9 (-3) 0 0 5 5).1⟩

/-- Counterexample for C5: with `N = 2` cells the normalized value
`1/2 = (N-1)/N` does *not* map to index `N-1 = 1` — it maps to `0`.  The
spec's claim that every normalized value `≥ (N-1)/N` reaches the last index
is false. -/
theorem claim_C5_counterexample :
    ((2 - 1 : ℚ) / 2 ≤ 1 / 2) ∧ axisIndex 2 ((1 : ℚ) / 2) = 0 ∧ ¬((0 : ℤ) = 2 - 1) := by
  decide

/-- C5 (amended): for every axis with `N ≥ 2` cells, the mapping
`floor(sat(v) * (N-1))` sends the normalized value `1.0` to `N-1`, and a
normalized value reaches index `N-1` exactly when it is `≥ 1` (values `> 1`
are clamped to `1`).  Hence the preimage of the last index inside `[0,1]`
is the single point `1.0`: the last cell is *smaller* than the others, not
larger, and the threshold is `1`, not `(N-1)/N`. -/
theorem claim_C5_last_index (n : ℕ) (hn : 2 ≤ n) :
    axisIndex n 1 = (n : ℤ) - 1 ∧ ∀ v : ℚ, axisIndex n v = (n : ℤ) - 1 ↔ 1 ≤ v := by
  have h1q : (2 : ℚ) ≤ (n : ℚ) := by exact_mod_cast hn
  have hcast : ((n : ℚ) - 1) = (((n : ℤ) - 1 : ℤ) : ℚ) := by push_cast; ring
  constructor
  · unfold axisIndex sat
    rw [show min (max (1 : ℚ) 0) 1 = 1 by norm_num, one_mul, hcast, Int.floor_intCast]
  · intro v
    constructor
    · intro hfl
      by_contra hlt
      push_neg at hlt
      have hs1 : sat v < 1 := by
        unfold sat
        exact lt_of_le_of_lt (min_le_left _ _) (max_lt hlt one_pos)
      have hmul : sat v * ((n : ℚ) - 1) < (n : ℚ) - 1 := by
        have := mul_lt_mul_of_pos_right hs1 (by linarith : (0 : ℚ) < (n : ℚ) - 1)
        simpa using this
      have hflt : axisIndex n v < (n : ℤ) - 1 := by
        unfold axisIndex
        refine Int.floor_lt.mpr ?_
        push_cast
        linarith
      omega
    · intro hv
      unfold axisIndex sat
      rw [min_eq_right (le_trans hv (le_max_left v 0)), one_mul, hcast, Int.floor_intCast]

/-- Witness for C5's amended statement at `N = 4`. -/
theorem claim_C5_witness :
    2 ≤ 4 ∧ axisIndex 4 1 = (4 : ℤ) - 1 ∧
      (axisIndex 4 ((1 : ℚ) / 2) = (4 : ℤ) - 1 ↔ 1 ≤ ((1 : ℚ) / 2)) :=
  ⟨by decide, (claim_C5_last_index 4 (by decide)).1, (claim_C5_last_index 4 (by decide)).2 (1 / 2)⟩

/-- Counterexample for C6: re-inserting the already-inserted demo client
does not fail (insert is total, it performs no already-inserted check) and
it mutates the grid: the covered bucket now holds two memberships of
client 0. -/
theorem claim_C6_counterexample :
    (demoGrid1.heap.getD 0 default).spanMin ≠ none ∧
    insertClient demoGrid1 0 ≠ demoGrid1 ∧
    ((bucketAt (insertClient demoGrid1 0).cells 1 1).filter
      (fun bn => bn.client == 0)).length = 2 := by
  decide

/-- C6 (amended): `insert` performs no already-inserted check.  Invoked on
a client whose span is non-"none" it does not fail: it prepends fresh
memberships for the recomputed span — every bucket keeps its previous
content as a suffix, so the client's existing memberships are left in
place (duplicated, then leaked) — and it overwrites the stored span.  (In
the repository `insert` is private and only ever reached with a "none"
span: on fresh clients from `newClient` and after `remove` inside
`updateClient`.) -/
theorem claim_C6_insert_unchecked (w : World) (cid : ℕ)
    (hcid : cid < w.heap.length)
    (hins : (w.heap.getD cid default).spanMin ≠ none) :
    (∀ x y : ℤ, (bucketAt w.cells x y).IsSuffix (bucketAt (insertClient w cid).cells x y)) ∧
    ((insertClient w cid).heap.getD cid default).spanMin =
      some (clientSpanMin w (w.heap.getD cid default)) := by
  constructor
  · intro x y
    rw [insertClient_cells]
    exact bucketAt_foldl_suffix _ (fun p b => List.suffix_cons _ _) _ w.cells x y
  · rw [insertClient_heap, getD_set_self _ _ _ _ hcid]

/-- Witness for C6's amended statement on the demo grid. -/
theorem claim_C6_witness :
    (0 < demoGrid1.heap.length ∧ (demoGrid1.heap.getD 0 default).spanMin ≠ none) ∧
    ((insertClient demoGrid1 0).heap.getD 0 default).spanMin =
      some (clientSpanMin demoGrid1 (demoGrid1.heap.getD 0 default)) :=
  ⟨⟨by decide, by decide⟩,
    (claim_C6_insert_unchecked demoGrid1 0 (by decide) (by decide)).2⟩

/-- C7: `remove` and `updateClient` on a client without a stored span fail
with their `InvalidState` errors — raised by the precondition checks that
run before any mutation, so the erroring call leaves grid and client
untouched (modelled by `Except.error` carrying no state) — while on a
client with a full stored span (`min`/`max`/`nodes` all present, as every
inserted client has) neither operation raises an error. -/
theorem claim_C7_invalid_state (w : World) (cid : ℕ) :
    (((w.heap.getD cid default).spanMin = none ∨
        (w.heap.getD cid default).spanMax = none) →
      removeClient w cid = .error "Client has no min or max." ∧
      updateClient w cid = .error "Client has no min/max cells.") ∧
    (((w.heap.getD cid default).spanMin ≠ none ∧
        (w.heap.getD cid default).spanMax ≠ none ∧
        (w.heap.getD cid default).nodes ≠ none) →
      (∃ w', removeClient w cid = .ok w') ∧ ∃ w', updateClient w cid = .ok w') := by
  constructor
  · intro h
    exact ⟨removeClient_no_span w cid h, updateClient_no_span w cid h⟩
  · rintro ⟨h1, h2, h3⟩
    rcases hmn : (w.heap.getD cid default).spanMin with _ | i1
    · exact absurd hmn h1
    rcases hmx : (w.heap.getD cid default).spanMax with _ | i2
    · exact absurd hmx h2
    rcases hnd : (w.heap.getD cid default).nodes with _ | nds
    · exact absurd hnd h3
    constructor
    · exact ⟨_, removeClient_some w cid i1 i2 nds hmn hmx hnd⟩
    · rw [updateClient_some w cid i1 i2 hmn hmx]
      by_cases hco : i1 = clientSpanMin w (w.heap.getD cid default) ∧
          i2 = clientSpanMax w (w.heap.getD cid default)
      · rw [if_pos hco]
        exact ⟨w, rfl⟩
      · rw [if_neg hco, removeClient_some w cid i1 i2 nds hmn hmx hnd]
        exact ⟨_, rfl⟩

/-- Witness for C7: a never-inserted client errors, the inserted demo
client does not. -/
theorem claim_C7_witness :
    removeClient demoGrid 0 = .error "Client has no min or max." ∧
    ∃ w', removeClient demoGrid1 0 = .ok w' :=
  ⟨((claim_C7_invalid_state demoGrid 0).1 (Or.inl (by decide))).1,
    ((claim_C7_invalid_state demoGrid1 0).2 (by decide)).1⟩

/-- Counterexample for C8: inserting a client with the *negative* extent
`(-2, 1)` at `(2, 2)` on the demo grid yields the inverted span
`min = (2,1)`, `max = (0,1)` — `min ≠ max` on the degenerate axis, and in
fact `min > max` — and creates no membership at all (the cell array is
unchanged), so the client is not "fully present". -/
theorem claim_C8_counterexample :
    ((newClient demoGrid 2 2 (-2) 1 0).1.heap.getD 0 default).spanMin = some (2, 1) ∧
    ((newClient demoGrid 2 2 (-2) 1 0).1.heap.getD 0 default).spanMax = some (0, 1) ∧
    ¬((2 : ℤ) = 0) ∧
    (newClient demoGrid 2 2 (-2) 1 0).1.cells = demoGrid.cells := by
  decide

/-- C8 (amended): `insert` never fails on a degenerate extent.  For an
extent of *zero* on both axes the two corner positions coincide, so the
computed span satisfies `min = max` (one cell) and the client is present
in that cell's bucket.  For a strictly *negative* extent, however, the
span can invert (`min > max`, see the counterexample) and then no
membership is created: the "at least a 1-cell footprint" policy holds for
zero extents only. -/
theorem claim_C8_zero_extent (w : World) (cid : ℕ) (hcid : cid < w.heap.length)
    (hdx : 1 ≤ w.dimsX) (hdy : 1 ≤ w.dimsY)
    (hclen : w.cells.length = w.dimsX)
    (hrows : ∀ row ∈ w.cells, row.length = w.dimsY)
    (hw0 : (w.heap.getD cid default).dimW = 0)
    (hh0 : (w.heap.getD cid default).dimH = 0) :
    ∃ i : ℤ × ℤ,
      ((insertClient w cid).heap.getD cid default).spanMin = some i ∧
      ((insertClient w cid).heap.getD cid default).spanMax = some i ∧
      clientInBucket cid (bucketAt (insertClient w cid).cells i.1 i.2) := by
  have he : clientSpanMax w (w.heap.getD cid default) =
      clientSpanMin w (w.heap.getD cid default) := by
    unfold clientSpanMax clientSpanMin
    rw [hw0, hh0]
    norm_num
  refine ⟨clientSpanMin w (w.heap.getD cid default), ?_, ?_, ?_⟩
  · rw [insertClient_heap, getD_set_self _ _ _ _ hcid]
  · rw [insertClient_heap, getD_set_self _ _ _ _ hcid]
    show some (clientSpanMax w (w.heap.getD cid default)) =
      some (clientSpanMin w (w.heap.getD cid default))
    rw [he]
  · have hmem : (clientSpanMin w (w.heap.getD cid default)) ∈
        spanCells (clientSpanMin w (w.heap.getD cid default))
          (clientSpanMax w (w.heap.getD cid default)) := by
      rw [mem_spanCells, he]
      omega
    have hic : inCells w.cells (clientSpanMin w (w.heap.getD cid default)).1
        (clientSpanMin w (w.heap.getD cid default)).2 := by
      rw [inCells_iff_of_shape w hclen hrows]
      have e : clientSpanMin w (w.heap.getD cid default) =
          getCellIndex w ((w.heap.getD cid default).posX - (w.heap.getD cid default).dimW / 2)
            ((w.heap.getD cid default).posY - (w.heap.getD cid default).dimH / 2) := rfl
      have r := getCellIndex_range w hdx hdy
        ((w.heap.getD cid default).posX - (w.heap.getD cid default).dimW / 2)
        ((w.heap.getD cid default).posY - (w.heap.getD cid default).dimH / 2)
      rw [e]
      omega
    rw [insertClient_cells,
      bucketAt_foldl_modify _ _ (nodup_spanCells _ _) w.cells
        (clientSpanMin w (w.heap.getD cid default)), if_pos ⟨hmem, hic⟩]
    exact ⟨_, List.mem_cons_self _ _, rfl⟩

/-- Witness for C8's amended statement: a zero-extent client on the demo
grid. -/
theorem claim_C8_witness :
    (0 < demoGridZero.heap.length ∧ (demoGridZero.heap.getD 0 default).dimW = 0) ∧
    ∃ i : ℤ × ℤ,
      ((insertClient demoGridZero 0).heap.getD 0 default).spanMin = some i ∧
      ((insertClient demoGridZero 0).heap.getD 0 default).spanMax = some i ∧
      clientInBucket 0 (bucketAt (insertClient demoGridZero 0).cells i.1 i.2) :=
  ⟨⟨by decide, by decide⟩,
    claim_C8_zero_extent demoGridZero 0 (by decide) (by decide) (by decide) (by decide)
      (by decide) (by decide) (by decide)⟩

end SpatialHashGrid

namespace ThreeSpatialHashGrid

open SpatialHashGrid

/-- C9 (code bug): `ThreeSpatialHashGrid.add` buckets a client at the
object's `(position.x, position.z)`, but `update` refreshes the stored
position from `(position.x, position.y)` — `.y`, not `.z`.  Evaluated at
the failing input (an object standing still at `(1, 0, 2)` with `y ≠ z`):
after `add` the client sits at `(1, 2)` with span `min = (0,1)`; one
`update` call, with the object unmoved, rewrites the position to `(1, 0)`
and re-buckets the client to span `min = (0,0)` — contradicting the claim
that an unmoved object keeps its position and span. -/
theorem claim_C9_update_reads_y :
    demoObj.pos.y ≠ demoObj.pos.z ∧
    (demoT1.world.heap.getD 0 default).posY = 2 ∧
    (demoT1.world.heap.getD 0 default).spanMin = some (0, 1) ∧
    (update demoT1).toOption.map
      (fun t => ((t.world.heap.getD 0 default).posY,
        (t.world.heap.getD 0 default).spanMin)) = some (0, some (0, 0)) := by
  decide

/-- C10 (code bug): `dispose` calls `clients.splice(i, 1)` while the loop
counter `i` keeps incrementing, so every other entry is skipped.  Evaluated
at the failing input of two added clients: after `dispose` one client is
still in the `clients` array and still inserted in the grid (its span is
non-"none") — contradicting the claim that the array is empty and every
client removed. -/
theorem claim_C10_dispose_skips :
    demoT2.clients.length = 2 ∧
    (dispose demoT2).toOption.map
      (fun t => (t.clients.length,
        (t.world.heap.getD (t.clients.getD 0 0) default).spanMin.isSome)) =
      some (1, true) := by
  decide

end ThreeSpatialHashGrid
